import Mathlib

/-!
Verification of the session broker in `src/enhancer/EnhancerServer.ts` and the
caller-facing tool `enhancePromptTool`.

The embedding models the `EnhancerServer` class state as:
  * `heap`      — every `SessionData` object ever allocated (JS objects stay live
                  through the promise/timer closures even after map deletion);
  * `storeKeys` — the key set of the `this.sessions : Map<string, SessionData>`
                  registry; the map's value for a live key is the heap object.

A session's `promise` / `resolve` / `reject` triple is modelled by a write-once
`resolution` field (`none` = unsettled, `some (.ok v)` = resolved with `v`,
`some (.error m)` = rejected with message `m`); JS promises settle at most once,
which `settle` encodes.  `Date.now()`, `crypto.randomUUID()` and the external
`enhanceCallback` are nondeterministic inputs and are passed as parameters.
The `await` inside `handleReEnhance` is flattened into a single step whose
callback outcome is an oracle argument.
-/

deriving instance DecidableEq for Except

namespace AceTool

/-- Session status, from the union type `'pending' | 'completed' | 'timeout'`
on the `status` field of `SessionData`. -/
inductive Status where
  | pending
  | completed
  | timedOut
deriving DecidableEq, Repr

/-- The `SessionData` interface (lines 14–25 of `EnhancerServer.ts`), with the
promise triple collapsed into the write-once `resolution` field. -/
structure SessionData where
  id : String
  enhancedPrompt : String
  originalPrompt : String
  conversationHistory : String
  blobNames : List String
  status : Status
  createdAt : Nat
  resolution : Option (Except String String)
deriving DecidableEq, Repr

/-- Lookup in an association list keyed by session id (models `Map.get`). -/
def heapGet : List (String × SessionData) → String → Option SessionData
  | [], _ => none
  | (k, v) :: rest, i => if k = i then some v else heapGet rest i

/-- Insert-or-overwrite in an association list (models `Map.set` and in-place
object mutation, which coincide because map values are object references). -/
def heapSet : List (String × SessionData) → String → SessionData → List (String × SessionData)
  | [], i, v => [(i, v)]
  | (k, w) :: rest, i, v => if k = i then (i, v) :: rest else (k, w) :: heapSet rest i v

/-- Boolean membership in the key list (models `Map.has` on `this.sessions`). -/
def keyMem : List String → String → Bool
  | [], _ => false
  | k :: rest, i => if k = i then true else keyMem rest i

/-- Remove a key (models `this.sessions.delete(sessionId)`). -/
def keyRemove : List String → String → List String
  | [], _ => []
  | k :: rest, i => if k = i then keyRemove rest i else k :: keyRemove rest i

/-- Add a key (models `this.sessions.set(sessionId, session)` on the key set). -/
def keyInsert (l : List String) (i : String) : List String :=
  if keyMem l i then l else i :: l

/-- The `EnhancerServer` mutable state relevant to sessions. -/
structure ServerState where
  heap : List (String × SessionData)
  storeKeys : List String
deriving DecidableEq, Repr

/-- `this.sessions.get(id)`: defined only while the id is registered. -/
def sessionsGet (st : ServerState) (i : String) : Option SessionData :=
  if keyMem st.storeKeys i then heapGet st.heap i else none

/-- A JS promise settles once: a second `resolve`/`reject` is a no-op. -/
def settle (r : Option (Except String String)) (v : Except String String) :
    Option (Except String String) :=
  match r with
  | none => some v
  | some w => some w

/-- `private readonly TIMEOUT_MS = 8 * 60 * 1000` (line 34). -/
def TIMEOUT_MS : Nat := 8 * 60 * 1000

/-- The rejection message of the timeout guard (line 105). -/
def timeoutMessage : String := "User interaction timeout (8 minutes)"

/-- JS truthiness of an optional string: `undefined`/`null` and `""` are falsy
(the guards `if (!sessionId)` in the handlers). -/
def isFalsy : Option String → Bool
  | none => true
  | some s => s.isEmpty

/-- The JSON payloads the handlers write, as structured data. -/
inductive ApiBody where
  | errorMsg (msg : String)
  | submitOk
  | enhancedOk (enhancedPrompt : String)
  | sessionInfo (enhancedPrompt : String) (status : Status) (createdAt : Nat) (timeoutMs : Nat)
deriving DecidableEq, Repr

/-- An HTTP response: status code plus JSON body. -/
abbrev ApiResponse := Nat × ApiBody

/-- `createSession` (lines 75–114): allocates a pending record with an
unsettled promise, registers it, and arms the timeout timer.  The fresh
`sessionId` (from `crypto.randomUUID()`) and `now` (from `Date.now()`) are
parameters. -/
def createSession (st : ServerState) (sessionId enhancedPrompt originalPrompt
    conversationHistory : String) (blobNames : List String) (now : Nat) : ServerState :=
  let session : SessionData :=
    { id := sessionId
      enhancedPrompt := enhancedPrompt
      originalPrompt := originalPrompt
      conversationHistory := conversationHistory
      blobNames := blobNames
      status := .pending
      createdAt := now
      resolution := none }
  { heap := heapSet st.heap sessionId session
    storeKeys := keyInsert st.storeKeys sessionId }

/-- The `setTimeout` callback armed by `createSession` (lines 101–107): the
closure checks the captured object's `status`; if still pending it marks the
session timed out, deletes it from the registry, and rejects the promise. -/
def timeoutFire (st : ServerState) (sessionId : String) : ServerState :=
  match heapGet st.heap sessionId with
  | none => st
  | some s =>
    if s.status = .pending then
      let s' : SessionData :=
        { s with status := .timedOut, resolution := settle s.resolution (.error timeoutMessage) }
      { heap := heapSet st.heap sessionId s'
        storeKeys := keyRemove st.storeKeys sessionId }
    else st

/-- `handleSubmit` (lines 214–275), after the body is parsed into
`sessionId`/`content`: validates the id, rejects non-pending sessions, marks
the session completed and resolves its promise with the submitted content or
the value a reserved marker maps to.  It does not touch the registry or the
timer. -/
def handleSubmit (st : ServerState) (sessionId : Option String) (content : String) :
    ServerState × ApiResponse :=
  if isFalsy sessionId then
    (st, (400, .errorMsg "Session ID is required"))
  else
    let sid := sessionId.getD ""
    match sessionsGet st sid with
    | none => (st, (404, .errorMsg "Session not found"))
    | some s =>
      if s.status ≠ .pending then
        (st, (400, .errorMsg "Session already completed or timed out"))
      else
        let value : String :=
          if content = "__USE_ORIGINAL__" then s.originalPrompt
          else if content = "__END_CONVERSATION__" then "__END_CONVERSATION__"
          else content
        let s' : SessionData :=
          { s with status := .completed, resolution := settle s.resolution (.ok value) }
        ({ st with heap := heapSet st.heap sid s' }, (200, .submitOk))

/-- `getSessionData` (lines 186–209): reads only; never mutates state. -/
def getSessionData (st : ServerState) (sessionId : Option String) : ApiResponse :=
  if isFalsy sessionId then
    (400, .errorMsg "Session ID is required")
  else
    let sid := sessionId.getD ""
    match sessionsGet st sid with
    | none => (404, .errorMsg "Session not found")
    | some s => (200, .sessionInfo s.enhancedPrompt s.status s.createdAt TIMEOUT_MS)

/-- `handleReEnhance` (lines 280–343), after body parsing, with the awaited
`this.enhanceCallback(...)` outcome supplied as an oracle: `none` models an
unconfigured callback, `some (.ok r)` a successful computation returning `r`,
`some (.error m)` a raised error with message `m`.  Note the handler checks
only that the id is registered — it never inspects `status`. -/
def handleReEnhance (st : ServerState) (sessionId : Option String) (currentPrompt : String)
    (callback : Option (Except String String)) : ServerState × ApiResponse :=
  if isFalsy sessionId then
    (st, (400, .errorMsg "Session ID is required"))
  else
    let sid := sessionId.getD ""
    match sessionsGet st sid with
    | none => (st, (404, .errorMsg "Session not found"))
    | some s =>
      match callback with
      | none => (st, (500, .errorMsg "Enhance callback not configured"))
      | some (.ok newEnhancedPrompt) =>
        let s' : SessionData := { s with enhancedPrompt := newEnhancedPrompt }
        ({ st with heap := heapSet st.heap sid s' }, (200, .enhancedOk newEnhancedPrompt))
      | some (.error m) =>
        (st, (500, .errorMsg ("Enhancement failed: " ++ m)))

/-- What a task suspended in `waitForSession` observes: the settlement of the
session object's promise (the closure holds the object, so observation works
even after the registry entry is gone). -/
def waiterObserve (st : ServerState) (sessionId : String) : Option (Except String String) :=
  (heapGet st.heap sessionId).bind (·.resolution)

/-- The `finally` block of `waitForSession` (line 133): once the awaited
promise settles, the record is deleted from the registry. -/
def waiterReap (st : ServerState) (sessionId : String) : ServerState :=
  { st with storeKeys := keyRemove st.storeKeys sessionId }

/-- The value `handleSubmit` resolves the promise with: the two reserved
markers are mapped (lines 249–257), any other content is passed through. -/
def submitValue (s : SessionData) (content : String) : String :=
  if content = "__USE_ORIGINAL__" then s.originalPrompt
  else if content = "__END_CONVERSATION__" then "__END_CONVERSATION__"
  else content

/-- The session object after a winning submit: completed, promise resolved. -/
def submitRecord (s : SessionData) (content : String) : SessionData :=
  { s with status := .completed, resolution := settle s.resolution (.ok (submitValue s content)) }

/-- The session object after the timeout guard wins: timed out, promise
rejected with the timeout error. -/
def timedOutRecord (s : SessionData) : SessionData :=
  { s with status := .timedOut, resolution := settle s.resolution (.error timeoutMessage) }

/-- The session object after a successful re-enhancement: only
`enhancedPrompt` is overwritten. -/
def reEnhancedRecord (s : SessionData) (newP : String) : SessionData :=
  { s with enhancedPrompt := newP }

/-- The events that can hit the server, in the order the event loop runs them.
`create` carries the fresh UUID and clock reading; `reap` is the waiter's
`finally` deletion, which can only run once the awaited promise has settled. -/
inductive Op where
  | create (sessionId enhancedPrompt originalPrompt conversationHistory : String)
      (blobNames : List String) (now : Nat)
  | fireTimeout (sessionId : String)
  | submit (sessionId : Option String) (content : String)
  | reEnhance (sessionId : Option String) (currentPrompt : String)
      (callback : Option (Except String String))
  | reap (sessionId : String)

/-- One event-loop step.  `create` only applies with a fresh id
(`crypto.randomUUID()` never collides with a live object); `reap` only applies
once the promise has settled (the `finally` block runs after the `await`). -/
def step (st : ServerState) : Op → ServerState
  | .create sessionId enhancedPrompt originalPrompt conversationHistory blobNames now =>
    if heapGet st.heap sessionId = none then
      createSession st sessionId enhancedPrompt originalPrompt conversationHistory blobNames now
    else st
  | .fireTimeout sessionId => timeoutFire st sessionId
  | .submit sessionId content => (handleSubmit st sessionId content).1
  | .reEnhance sessionId currentPrompt callback =>
    (handleReEnhance st sessionId currentPrompt callback).1
  | .reap sessionId =>
    if (waiterObserve st sessionId).isSome then waiterReap st sessionId else st

/-- Run a sequence of events. -/
def run (st : ServerState) : List Op → ServerState
  | [] => st
  | o :: rest => run (step st o) rest

/-- The server starts with no sessions. -/
def initState : ServerState := { heap := [], storeKeys := [] }

/-- States the server can actually be in. -/
def Reachable (st : ServerState) : Prop := ∃ ops : List Op, run initState ops = st

/-- Whether the second character list is a prefix of the first. -/
def charsStartWith : List Char → List Char → Bool
  | _, [] => true
  | [], _ :: _ => false
  | a :: as, b :: bs => if a = b then charsStartWith as bs else false

/-- Whether the second character list occurs contiguously in the first. -/
def charsContain : List Char → List Char → Bool
  | [], sub => charsStartWith [] sub
  | a :: rest, sub => charsStartWith (a :: rest) sub || charsContain rest sub

/-- JS `errorMessage.includes(sub)`: substring occurrence on the character
data of the strings. -/
def strIncludes (s sub : String) : Bool :=
  charsContain s.data sub.data

/-- `enhancePromptTool` (the tool entry point): validates required parameters,
maps the end-conversation sentinel to a stop message, and on a thrown error
whose message contains "timeout" falls back to a message carrying the
original, unedited prompt; all other errors are rethrown.  The outcome of
`enhancer.enhance` (create → await) is the `enhanceResult` parameter, with
`.error` modelling a thrown exception. -/
def enhancePromptTool (prompt conversationHistory : Option String)
    (enhanceResult : Except String String) : Except String String :=
  if isFalsy prompt then .error "Missing required parameter: prompt"
  else if isFalsy conversationHistory then
    .error "Missing required parameter: conversation_history"
  else
    match enhanceResult with
    | .ok enhancedPrompt =>
      if enhancedPrompt = "__END_CONVERSATION__" then
        .ok "User chose to end the conversation. Please stop and do not continue with any tasks."
      else .ok enhancedPrompt
    | .error errorMessage =>
      if strIncludes errorMessage "timeout" then
        .ok ("Enhancement timed out (8 minutes). Using original prompt: " ++ prompt.getD "")
      else .error errorMessage

/-- A concrete session-creation event used in the concrete runs below. -/
def exCreate : Op := .create "s1" "draft" "orig" "hist" [] 0

/-- A run holding one pending session "s1". -/
def exStatePending : ServerState := run initState [exCreate]

/-- "s1" after a winning submit of "final"; submit does not deregister it. -/
def exStateSubmitted : ServerState := run initState [exCreate, .submit (some "s1") "final"]

/-- "s1" after the timeout guard fired. -/
def exStateTimedOut : ServerState := run initState [exCreate, .fireTimeout "s1"]

theorem run_append (st : ServerState) (a b : List Op) :
    run st (a ++ b) = run (run st a) b := by
  induction a generalizing st with
  | nil => rfl
  | cons o rest ih => simp [run, ih]

theorem reachable_run {st : ServerState} (h : Reachable st) (ops : List Op) :
    Reachable (run st ops) := by
  obtain ⟨a, ha⟩ := h
  exact ⟨a ++ ops, by rw [run_append, ha]⟩

theorem reachable_step {st : ServerState} (h : Reachable st) (o : Op) :
    Reachable (step st o) :=
  reachable_run h [o]

@[simp] theorem heapGet_heapSet_self (h : List (String × SessionData)) (i : String)
    (v : SessionData) : heapGet (heapSet h i v) i = some v := by
  induction h with
  | nil => simp [heapGet, heapSet]
  | cons p rest ih =>
    by_cases hk : p.1 = i <;> simp [heapGet, heapSet, hk, ih]

theorem heapGet_heapSet_ne (h : List (String × SessionData)) {i j : String}
    (v : SessionData) (hij : j ≠ i) : heapGet (heapSet h i v) j = heapGet h j := by
  induction h with
  | nil => simp [heapGet, heapSet, hij, Ne.symm hij]
  | cons p rest ih =>
    by_cases hk : p.1 = i
    · simp [heapGet, heapSet, hk, hij, Ne.symm hij]
    · by_cases hj : p.1 = j <;> simp [heapGet, heapSet, hk, hj, hij, Ne.symm hij, ih]

@[simp] theorem keyMem_keyRemove_self (l : List String) (i : String) :
    keyMem (keyRemove l i) i = false := by
  induction l with
  | nil => simp [keyMem, keyRemove]
  | cons k rest ih =>
    by_cases hk : k = i <;> simp [keyMem, keyRemove, hk, ih]

theorem keyMem_keyRemove_ne (l : List String) {i j : String} (hij : j ≠ i) :
    keyMem (keyRemove l i) j = keyMem l j := by
  induction l with
  | nil => simp [keyMem, keyRemove]
  | cons k rest ih =>
    by_cases hk : k = i
    · simp [keyMem, keyRemove, hk, Ne.symm hij, ih]
    · by_cases hj : k = j <;> simp [keyMem, keyRemove, hk, hj, hij, Ne.symm hij, ih]

theorem keyMem_keyRemove_le {l : List String} {i j : String}
    (h : keyMem (keyRemove l i) j = true) : keyMem l j = true := by
  by_cases hij : j = i
  · subst hij; simp at h
  · rwa [keyMem_keyRemove_ne l hij] at h

@[simp] theorem keyMem_keyInsert_self (l : List String) (i : String) :
    keyMem (keyInsert l i) i = true := by
  unfold keyInsert
  by_cases h : keyMem l i <;> simp [h, keyMem]

theorem keyMem_keyInsert_ne (l : List String) {i j : String} (hij : j ≠ i) :
    keyMem (keyInsert l i) j = keyMem l j := by
  unfold keyInsert
  by_cases h : keyMem l i <;> simp [h, keyMem, hij, Ne.symm hij]

/-- Invariants every reachable server state satisfies: registered ids point to
live objects; a session is pending exactly while its promise is unsettled; the
only rejection ever produced is the timeout one; a timed-out session has been
deleted from the registry; a completed session's promise resolved to a value. -/
theorem isFalsy_some_ne {s : String} (h : s ≠ "") : isFalsy (some s) = false := by
  have he : s.isEmpty = false := by
    cases hb : s.isEmpty
    · rfl
    · exact absurd ((String.isEmpty_iff s).mp hb) h
  simp [isFalsy, he]

theorem isFalsy_eq_false {sid : Option String} (h : isFalsy sid = false) :
    ∃ s, sid = some s ∧ s ≠ "" := by
  cases sid with
  | none => simp [isFalsy] at h
  | some s =>
    refine ⟨s, rfl, ?_⟩
    intro he
    rw [he] at h
    simp only [isFalsy] at h
    rw [show ("" : String).isEmpty = true from (String.isEmpty_iff "").mpr rfl] at h
    cases h

theorem handleSubmit_missing (st : ServerState) {sid : Option String}
    (hf : isFalsy sid = true) (c : String) :
    handleSubmit st sid c = (st, (400, .errorMsg "Session ID is required")) := by
  simp [handleSubmit, hf]

theorem handleSubmit_notFound (st : ServerState) {sid : String} (hne : sid ≠ "")
    (hg : sessionsGet st sid = none) (c : String) :
    handleSubmit st (some sid) c = (st, (404, .errorMsg "Session not found")) := by
  simp [handleSubmit, isFalsy_some_ne hne, hg]

theorem handleSubmit_resolved (st : ServerState) {sid : String} {s : SessionData}
    (hne : sid ≠ "") (hg : sessionsGet st sid = some s) (hs : s.status ≠ .pending)
    (c : String) :
    handleSubmit st (some sid) c =
      (st, (400, .errorMsg "Session already completed or timed out")) := by
  simp [handleSubmit, isFalsy_some_ne hne, hg, hs]

theorem handleSubmit_pending (st : ServerState) {sid : String} {s : SessionData}
    (hne : sid ≠ "") (hg : sessionsGet st sid = some s) (hp : s.status = .pending)
    (c : String) :
    handleSubmit st (some sid) c =
      ({ st with heap := heapSet st.heap sid (submitRecord s c) }, (200, .submitOk)) := by
  simp [handleSubmit, isFalsy_some_ne hne, hg, hp, submitRecord, submitValue]

theorem timeoutFire_none (st : ServerState) {sid : String}
    (hg : heapGet st.heap sid = none) : timeoutFire st sid = st := by
  unfold timeoutFire
  rw [hg]

theorem timeoutFire_notPending (st : ServerState) {sid : String} {s : SessionData}
    (hg : heapGet st.heap sid = some s) (hs : s.status ≠ .pending) :
    timeoutFire st sid = st := by
  unfold timeoutFire
  rw [hg]
  exact if_neg hs

theorem timeoutFire_pending (st : ServerState) {sid : String} {s : SessionData}
    (hg : heapGet st.heap sid = some s) (hp : s.status = .pending) :
    timeoutFire st sid =
      { heap := heapSet st.heap sid (timedOutRecord s),
        storeKeys := keyRemove st.storeKeys sid } := by
  unfold timeoutFire
  rw [hg]
  exact if_pos hp

theorem reEnhance_missing (st : ServerState) {sid : Option String}
    (hf : isFalsy sid = true) (p : String) (cb : Option (Except String String)) :
    handleReEnhance st sid p cb = (st, (400, .errorMsg "Session ID is required")) := by
  simp [handleReEnhance, hf]

theorem reEnhance_notFound (st : ServerState) {sid : String} (hne : sid ≠ "")
    (hg : sessionsGet st sid = none) (p : String) (cb : Option (Except String String)) :
    handleReEnhance st (some sid) p cb = (st, (404, .errorMsg "Session not found")) := by
  simp [handleReEnhance, isFalsy_some_ne hne, hg]

theorem reEnhance_noCallback (st : ServerState) {sid : String} {s : SessionData}
    (hne : sid ≠ "") (hg : sessionsGet st sid = some s) (p : String) :
    handleReEnhance st (some sid) p none =
      (st, (500, .errorMsg "Enhance callback not configured")) := by
  simp [handleReEnhance, isFalsy_some_ne hne, hg]

theorem reEnhance_ok (st : ServerState) {sid : String} {s : SessionData}
    (hne : sid ≠ "") (hg : sessionsGet st sid = some s) (p newP : String) :
    handleReEnhance st (some sid) p (some (.ok newP)) =
      ({ st with heap := heapSet st.heap sid (reEnhancedRecord s newP) },
        (200, .enhancedOk newP)) := by
  simp [handleReEnhance, isFalsy_some_ne hne, hg, reEnhancedRecord]

theorem reEnhance_error (st : ServerState) {sid : String} {s : SessionData}
    (hne : sid ≠ "") (hg : sessionsGet st sid = some s) (p m : String) :
    handleReEnhance st (some sid) p (some (.error m)) =
      (st, (500, .errorMsg ("Enhancement failed: " ++ m))) := by
  simp [handleReEnhance, isFalsy_some_ne hne, hg]

theorem getSessionData_missing (st : ServerState) {sid : Option String}
    (hf : isFalsy sid = true) :
    getSessionData st sid = (400, .errorMsg "Session ID is required") := by
  simp [getSessionData, hf]

theorem getSessionData_notFound (st : ServerState) {sid : String} (hne : sid ≠ "")
    (hg : sessionsGet st sid = none) :
    getSessionData st (some sid) = (404, .errorMsg "Session not found") := by
  simp [getSessionData, isFalsy_some_ne hne, hg]

theorem getSessionData_found (st : ServerState) {sid : String} {s : SessionData}
    (hne : sid ≠ "") (hg : sessionsGet st sid = some s) :
    getSessionData st (some sid) =
      (200, .sessionInfo s.enhancedPrompt s.status s.createdAt TIMEOUT_MS) := by
  simp [getSessionData, isFalsy_some_ne hne, hg]

structure WF (st : ServerState) : Prop where
  storeLive : ∀ i, keyMem st.storeKeys i = true → (heapGet st.heap i).isSome = true
  pendingIff : ∀ i s, heapGet st.heap i = some s → (s.status = .pending ↔ s.resolution = none)
  errTimeout : ∀ i s, heapGet st.heap i = some s →
    ∀ m, s.resolution = some (.error m) → m = timeoutMessage
  timedOutGone : ∀ i s, heapGet st.heap i = some s →
    s.status = .timedOut → keyMem st.storeKeys i = false
  completedOk : ∀ i s, heapGet st.heap i = some s →
    s.status = .completed → ∃ v, s.resolution = some (.ok v)

theorem keyMem_keyRemove_false {l : List String} {i j : String}
    (h : keyMem l j = false) : keyMem (keyRemove l i) j = false := by
  cases hb : keyMem (keyRemove l i) j
  · rfl
  · exact absurd (keyMem_keyRemove_le hb) (by simp [h])

theorem sessionsGet_eq_some {st : ServerState} {i : String} {s : SessionData}
    (h : sessionsGet st i = some s) :
    keyMem st.storeKeys i = true ∧ heapGet st.heap i = some s := by
  unfold sessionsGet at h
  by_cases hk : keyMem st.storeKeys i = true
  · exact ⟨hk, by simpa [hk] using h⟩
  · simp [hk] at h

/-- Heap-only update of a live record that stays out of `timedOut`. -/
theorem wf_updateLive {st : ServerState} (w : WF st) {i : String} {sOld sNew : SessionData}
    (hget : heapGet st.heap i = some sOld)
    (hpend : sNew.status = .pending ↔ sNew.resolution = none)
    (herr : ∀ m, sNew.resolution = some (.error m) → m = timeoutMessage)
    (hcomp : sNew.status = .completed → ∃ v, sNew.resolution = some (.ok v))
    (hnt : sNew.status ≠ .timedOut) :
    WF { st with heap := heapSet st.heap i sNew } := by
  refine ⟨?_, ?_, ?_, ?_, ?_⟩
  · intro j hj
    by_cases hij : j = i
    · subst hij; simp
    · rw [heapGet_heapSet_ne st.heap sNew hij]
      exact w.storeLive j hj
  · intro j s hs
    by_cases hij : j = i
    · subst hij; simp at hs; exact hs ▸ hpend
    · rw [heapGet_heapSet_ne st.heap sNew hij] at hs
      exact w.pendingIff j s hs
  · intro j s hs
    by_cases hij : j = i
    · subst hij; simp at hs; exact hs ▸ herr
    · rw [heapGet_heapSet_ne st.heap sNew hij] at hs
      exact w.errTimeout j s hs
  · intro j s hs
    by_cases hij : j = i
    · subst hij; simp at hs; subst hs; intro hT; exact absurd hT hnt
    · rw [heapGet_heapSet_ne st.heap sNew hij] at hs
      exact w.timedOutGone j s hs
  · intro j s hs
    by_cases hij : j = i
    · subst hij; simp at hs; exact hs ▸ hcomp
    · rw [heapGet_heapSet_ne st.heap sNew hij] at hs
      exact w.completedOk j s hs

/-- The timeout-guard transition: record becomes timed out, registry entry
removed. -/
theorem wf_timeoutUpdate {st : ServerState} (w : WF st) {i : String} {sOld sNew : SessionData}
    (hget : heapGet st.heap i = some sOld)
    (hstat : sNew.status = .timedOut)
    (hres : sNew.resolution = some (.error timeoutMessage)) :
    WF { heap := heapSet st.heap i sNew, storeKeys := keyRemove st.storeKeys i } := by
  refine ⟨?_, ?_, ?_, ?_, ?_⟩
  · intro j hj
    have hj' := keyMem_keyRemove_le hj
    by_cases hij : j = i
    · subst hij; simp
    · rw [heapGet_heapSet_ne st.heap sNew hij]
      exact w.storeLive j hj'
  · intro j s hs
    by_cases hij : j = i
    · subst hij; simp at hs; subst hs; simp [hstat, hres]
    · rw [heapGet_heapSet_ne st.heap sNew hij] at hs
      exact w.pendingIff j s hs
  · intro j s hs
    by_cases hij : j = i
    · subst hij; simp at hs; subst hs
      intro m hm
      rw [hres] at hm
      injection hm with hm'
      injection hm' with hm''
      exact hm''.symm
    · rw [heapGet_heapSet_ne st.heap sNew hij] at hs
      exact w.errTimeout j s hs
  · intro j s hs
    by_cases hij : j = i
    · subst hij; intro _; simp
    · rw [heapGet_heapSet_ne st.heap sNew hij] at hs
      intro hT
      exact keyMem_keyRemove_false (w.timedOutGone j s hs hT)
  · intro j s hs
    by_cases hij : j = i
    · subst hij; simp at hs; subst hs; intro hC; rw [hstat] at hC; cases hC
    · rw [heapGet_heapSet_ne st.heap sNew hij] at hs
      exact w.completedOk j s hs

/-- Allocating a fresh pending record. -/
theorem wf_create {st : ServerState} (w : WF st) {i : String} {sNew : SessionData}
    (hstat : sNew.status = .pending) (hres : sNew.resolution = none) :
    WF { heap := heapSet st.heap i sNew, storeKeys := keyInsert st.storeKeys i } := by
  refine ⟨?_, ?_, ?_, ?_, ?_⟩
  · intro j hj
    by_cases hij : j = i
    · subst hij; simp
    · rw [keyMem_keyInsert_ne st.storeKeys hij] at hj
      rw [heapGet_heapSet_ne st.heap sNew hij]
      exact w.storeLive j hj
  · intro j s hs
    by_cases hij : j = i
    · subst hij; simp at hs; subst hs; simp [hstat, hres]
    · rw [heapGet_heapSet_ne st.heap sNew hij] at hs
      exact w.pendingIff j s hs
  · intro j s hs
    by_cases hij : j = i
    · subst hij; simp at hs; subst hs; intro m hm; rw [hres] at hm; cases hm
    · rw [heapGet_heapSet_ne st.heap sNew hij] at hs
      exact w.errTimeout j s hs
  · intro j s hs
    by_cases hij : j = i
    · subst hij; simp at hs; subst hs; intro hT; rw [hstat] at hT; cases hT
    · rw [heapGet_heapSet_ne st.heap sNew hij] at hs
      intro hT
      rw [keyMem_keyInsert_ne st.storeKeys hij]
      exact w.timedOutGone j s hs hT
  · intro j s hs
    by_cases hij : j = i
    · subst hij; simp at hs; subst hs; intro hC; rw [hstat] at hC; cases hC
    · rw [heapGet_heapSet_ne st.heap sNew hij] at hs
      exact w.completedOk j s hs

/-- Deleting a registry entry (the waiter's `finally`). -/
theorem wf_reap {st : ServerState} (w : WF st) (i : String) :
    WF { st with storeKeys := keyRemove st.storeKeys i } := by
  refine ⟨?_, ?_, ?_, ?_, ?_⟩
  · intro j hj
    exact w.storeLive j (keyMem_keyRemove_le hj)
  · exact w.pendingIff
  · exact w.errTimeout
  · intro j s hs hT
    exact keyMem_keyRemove_false (w.timedOutGone j s hs hT)
  · exact w.completedOk

theorem wf_step {st : ServerState} (w : WF st) (o : Op) : WF (step st o) := by
  cases o with
  | create sid ep orig hist blobs now =>
    simp only [step]
    split
    · exact wf_create w rfl rfl
    · exact w
  | fireTimeout sid =>
    show WF (timeoutFire st sid)
    cases hg : heapGet st.heap sid with
    | none => rw [timeoutFire_none st hg]; exact w
    | some s =>
      by_cases hp : s.status = .pending
      · rw [timeoutFire_pending st hg hp]
        have hres : s.resolution = none := (w.pendingIff sid s hg).mp hp
        exact wf_timeoutUpdate w hg rfl (by simp [timedOutRecord, settle, hres])
      · rw [timeoutFire_notPending st hg hp]; exact w
  | submit sid c =>
    show WF (handleSubmit st sid c).1
    cases hf : isFalsy sid with
    | true => rw [handleSubmit_missing st hf c]; exact w
    | false =>
      obtain ⟨sid', rfl, hne⟩ := isFalsy_eq_false hf
      cases hg : sessionsGet st sid' with
      | none => rw [handleSubmit_notFound st hne hg c]; exact w
      | some s =>
        by_cases hp : s.status = .pending
        · rw [handleSubmit_pending st hne hg hp c]
          obtain ⟨hkm, hhp⟩ := sessionsGet_eq_some hg
          have hres : s.resolution = none := (w.pendingIff _ s hhp).mp hp
          exact wf_updateLive w hhp (by simp [submitRecord, settle, hres])
            (by simp [submitRecord, settle, hres])
            (fun _ => ⟨submitValue s c, by simp [submitRecord, settle, hres]⟩)
            (by simp [submitRecord])
        · rw [handleSubmit_resolved st hne hg hp c]; exact w
  | reEnhance sid p cb =>
    show WF (handleReEnhance st sid p cb).1
    cases hf : isFalsy sid with
    | true => rw [reEnhance_missing st hf p cb]; exact w
    | false =>
      obtain ⟨sid', rfl, hne⟩ := isFalsy_eq_false hf
      cases hg : sessionsGet st sid' with
      | none => rw [reEnhance_notFound st hne hg p cb]; exact w
      | some s =>
        cases cb with
        | none => rw [reEnhance_noCallback st hne hg p]; exact w
        | some r =>
          cases r with
          | ok newP =>
            rw [reEnhance_ok st hne hg p newP]
            obtain ⟨hkm, hhp⟩ := sessionsGet_eq_some hg
            have hnt : s.status ≠ .timedOut := by
              intro hT
              have hfalse := w.timedOutGone _ s hhp hT
              rw [hkm] at hfalse
              cases hfalse
            exact wf_updateLive w hhp (w.pendingIff _ s hhp)
              (w.errTimeout _ s hhp) (w.completedOk _ s hhp) hnt
          | error m => rw [reEnhance_error st hne hg p m]; exact w
  | reap sid =>
    simp only [step]
    split
    · exact wf_reap w sid
    · exact w

theorem wf_run {st : ServerState} (w : WF st) (ops : List Op) : WF (run st ops) := by
  induction ops generalizing st with
  | nil => exact w
  | cons o rest ih => exact ih (wf_step w o)

theorem wf_initState : WF initState := by
  refine ⟨?_, ?_, ?_, ?_, ?_⟩ <;> intro i <;> simp [initState, keyMem, heapGet]

/-- Every reachable server state satisfies the invariants. -/
theorem reachable_wf {st : ServerState} (h : Reachable st) : WF st := by
  obtain ⟨ops, hops⟩ := h
  exact hops ▸ wf_run wf_initState ops

/-- One step never deletes a heap object, never changes the status or
resolution of a non-pending session, and never unsettles or changes a settled
promise. -/
theorem step_preserve {st : ServerState} {i : String} {s : SessionData}
    (hget : heapGet st.heap i = some s) (o : Op) :
    ∃ s', heapGet (step st o).heap i = some s' ∧
      (s.status ≠ .pending → s'.status = s.status ∧ s'.resolution = s.resolution) ∧
      (∀ v, s.resolution = some v → s'.resolution = some v) := by
  have triv : ∃ s', heapGet st.heap i = some s' ∧
      (s.status ≠ .pending → s'.status = s.status ∧ s'.resolution = s.resolution) ∧
      (∀ v, s.resolution = some v → s'.resolution = some v) :=
    ⟨s, hget, fun _ => ⟨rfl, rfl⟩, fun _ hv => hv⟩
  cases o with
  | create sid ep orig hist blobs now =>
    simp only [step]
    split
    · rename_i hfresh
      have hne : i ≠ sid := by
        intro he; subst he; rw [hget] at hfresh; cases hfresh
      refine ⟨s, ?_, fun _ => ⟨rfl, rfl⟩, fun _ hv => hv⟩
      show heapGet (heapSet st.heap sid _) i = some s
      rw [heapGet_heapSet_ne st.heap _ hne]
      exact hget
    · exact triv
  | fireTimeout sid =>
    show ∃ s', heapGet (timeoutFire st sid).heap i = some s' ∧ _
    cases hg : heapGet st.heap sid with
    | none => rw [timeoutFire_none st hg]; exact triv
    | some s0 =>
      by_cases hp : s0.status = .pending
      · rw [timeoutFire_pending st hg hp]
        by_cases hij : i = sid
        · subst hij
          rw [hget] at hg
          injection hg with hg
          subst hg
          refine ⟨_, heapGet_heapSet_self _ _ _, fun hnp => absurd hp hnp, fun v hv => ?_⟩
          simp [timedOutRecord, settle, hv]
        · refine ⟨s, ?_, fun _ => ⟨rfl, rfl⟩, fun _ hv => hv⟩
          show heapGet (heapSet st.heap sid _) i = some s
          rw [heapGet_heapSet_ne st.heap _ hij]
          exact hget
      · rw [timeoutFire_notPending st hg hp]; exact triv
  | submit sid c =>
    show ∃ s', heapGet (handleSubmit st sid c).1.heap i = some s' ∧ _
    cases hf : isFalsy sid with
    | true => rw [handleSubmit_missing st hf c]; exact triv
    | false =>
      obtain ⟨sid', rfl, hne⟩ := isFalsy_eq_false hf
      cases hg : sessionsGet st sid' with
      | none => rw [handleSubmit_notFound st hne hg c]; exact triv
      | some s0 =>
        by_cases hp : s0.status = .pending
        · rw [handleSubmit_pending st hne hg hp c]
          by_cases hij : i = sid'
          · subst hij
            obtain ⟨hkm, hhp⟩ := sessionsGet_eq_some hg
            rw [hget] at hhp
            injection hhp with hhp
            subst hhp
            refine ⟨_, heapGet_heapSet_self _ _ _, fun hnp => absurd hp hnp, fun v hv => ?_⟩
            simp [submitRecord, settle, hv]
          · refine ⟨s, ?_, fun _ => ⟨rfl, rfl⟩, fun _ hv => hv⟩
            show heapGet (heapSet st.heap sid' _) i = some s
            rw [heapGet_heapSet_ne st.heap _ hij]
            exact hget
        · rw [handleSubmit_resolved st hne hg hp c]; exact triv
  | reEnhance sid p cb =>
    show ∃ s', heapGet (handleReEnhance st sid p cb).1.heap i = some s' ∧ _
    cases hf : isFalsy sid with
    | true => rw [reEnhance_missing st hf p cb]; exact triv
    | false =>
      obtain ⟨sid', rfl, hne⟩ := isFalsy_eq_false hf
      cases hg : sessionsGet st sid' with
      | none => rw [reEnhance_notFound st hne hg p cb]; exact triv
      | some s0 =>
        cases cb with
        | none => rw [reEnhance_noCallback st hne hg p]; exact triv
        | some r =>
          cases r with
          | ok newP =>
            rw [reEnhance_ok st hne hg p newP]
            by_cases hij : i = sid'
            · subst hij
              obtain ⟨hkm, hhp⟩ := sessionsGet_eq_some hg
              rw [hget] at hhp
              injection hhp with hhp
              subst hhp
              exact ⟨_, heapGet_heapSet_self _ _ _, fun _ => ⟨rfl, rfl⟩, fun _ hv => hv⟩
            · refine ⟨s, ?_, fun _ => ⟨rfl, rfl⟩, fun _ hv => hv⟩
              show heapGet (heapSet st.heap sid' _) i = some s
              rw [heapGet_heapSet_ne st.heap _ hij]
              exact hget
          | error m => rw [reEnhance_error st hne hg p m]; exact triv
  | reap sid =>
    simp only [step]
    split
    · exact triv
    · exact triv
theorem run_preserve {st : ServerState} {i : String} {s : SessionData}
    (hget : heapGet st.heap i = some s) (ops : List Op) :
    ∃ s', heapGet (run st ops).heap i = some s' ∧
      (s.status ≠ .pending → s'.status = s.status ∧ s'.resolution = s.resolution) ∧
      (∀ v, s.resolution = some v → s'.resolution = some v) := by
  induction ops generalizing st s with
  | nil => exact ⟨s, hget, fun _ => ⟨rfl, rfl⟩, fun _ hv => hv⟩
  | cons o rest ih =>
    obtain ⟨s1, h1, hnp1, hres1⟩ := step_preserve hget o
    obtain ⟨s2, h2, hnp2, hres2⟩ := ih h1
    refine ⟨s2, h2, ?_, ?_⟩
    · intro hnp
      obtain ⟨hst1, hre1⟩ := hnp1 hnp
      obtain ⟨hst2, hre2⟩ := hnp2 (by rw [hst1]; exact hnp)
      exact ⟨hst2.trans hst1, hre2.trans hre1⟩
    · intro v hv
      exact hres2 v (hres1 v hv)
theorem settle_isSome (r : Option (Except String String)) (v : Except String String) :
    (settle r v).isSome = true := by
  cases r <;> rfl

/-- C10: a POST submit whose body lacks a sessionId and a GET session-info
request without a session parameter are each answered with the 400
"Session ID is required" error (not 404); the submit leaves the state exactly
as it was, and neither answer depends on the session state. -/
theorem c10_missing_id_validation :
    (∀ st c, handleSubmit st none c = (st, (400, .errorMsg "Session ID is required"))) ∧
    (∀ st, getSessionData st none = (400, .errorMsg "Session ID is required")) := by
  constructor
  · intro st c
    exact @handleSubmit_missing st none rfl c
  · intro st
    exact @getSessionData_missing st none rfl

/-- C4: for a pending session, submit always answers 200; the reserved marker
"__USE_ORIGINAL__" resolves the rendezvous to the fallback (original) content,
"__END_CONVERSATION__" resolves it to the end-conversation sentinel, and any
other content is observed by the waiter verbatim. -/
theorem c4_sentinel_submit {st : ServerState} {sid : String} {s : SessionData}
    (hr : Reachable st) (hne : sid ≠ "") (hg : sessionsGet st sid = some s)
    (hp : s.status = .pending) :
    (∀ c, (handleSubmit st (some sid) c).2 = (200, .submitOk)) ∧
    waiterObserve (handleSubmit st (some sid) "__USE_ORIGINAL__").1 sid
      = some (.ok s.originalPrompt) ∧
    waiterObserve (handleSubmit st (some sid) "__END_CONVERSATION__").1 sid
      = some (.ok "__END_CONVERSATION__") ∧
    ∀ c, c ≠ "__USE_ORIGINAL__" → c ≠ "__END_CONVERSATION__" →
      waiterObserve (handleSubmit st (some sid) c).1 sid = some (.ok c) := by
  obtain ⟨hkm, hhp⟩ := sessionsGet_eq_some hg
  have hres : s.resolution = none := ((reachable_wf hr).pendingIff _ s hhp).mp hp
  have hne2 : ("__END_CONVERSATION__" : String) ≠ "__USE_ORIGINAL__" := by decide
  refine ⟨?_, ?_, ?_, ?_⟩
  · intro c
    rw [handleSubmit_pending st hne hg hp c]
  · rw [handleSubmit_pending st hne hg hp _]
    simp [waiterObserve, submitRecord, submitValue, settle, hres]
  · rw [handleSubmit_pending st hne hg hp _]
    simp [waiterObserve, submitRecord, submitValue, settle, hres, hne2]
  · intro c h1 h2
    rw [handleSubmit_pending st hne hg hp c]
    simp [waiterObserve, submitRecord, submitValue, settle, hres, h1, h2]

theorem c4_sentinel_submit_witness :
    waiterObserve (handleSubmit exStatePending (some "s1") "__USE_ORIGINAL__").1 "s1"
      = some (.ok "orig") :=
  (@c4_sentinel_submit exStatePending "s1"
    ⟨"s1", "draft", "orig", "hist", [], .pending, 0, none⟩
    ⟨[exCreate], rfl⟩ (by decide) (by decide) (by decide)).2.1

/-- C6: while Pending, a failing enhancement computation leaves the state
completely unchanged (the session stays pending with its prior
`currentContent`) and surfaces the failure as a 500 error; a successful one
atomically overwrites only `currentContent` with the result, which is also
returned in the response. -/
theorem c6_reprocess_failure_frame {st : ServerState} {sid : String} {s : SessionData}
    (hne : sid ≠ "") (hg : sessionsGet st sid = some s) (hp : s.status = .pending)
    (p : String) :
    (∀ m, handleReEnhance st (some sid) p (some (.error m))
        = (st, (500, .errorMsg ("Enhancement failed: " ++ m)))) ∧
    (∀ r, handleReEnhance st (some sid) p (some (.ok r))
        = ({ st with heap := heapSet st.heap sid (reEnhancedRecord s r) },
            (200, .enhancedOk r)) ∧
      (reEnhancedRecord s r).enhancedPrompt = r ∧
      (reEnhancedRecord s r).status = .pending ∧
      (reEnhancedRecord s r).originalPrompt = s.originalPrompt ∧
      (reEnhancedRecord s r).createdAt = s.createdAt ∧
      (reEnhancedRecord s r).resolution = s.resolution) := by
  refine ⟨fun m => reEnhance_error st hne hg p m,
    fun r => ⟨reEnhance_ok st hne hg p r, ?_, ?_, ?_, ?_, ?_⟩⟩ <;>
    simp [reEnhancedRecord, hp]

theorem c6_reprocess_failure_frame_witness :
    handleReEnhance exStatePending (some "s1") "p" (some (.error "boom"))
      = (exStatePending, (500, .errorMsg ("Enhancement failed: " ++ "boom"))) :=
  (@c6_reprocess_failure_frame exStatePending "s1"
    ⟨"s1", "draft", "orig", "hist", [], .pending, 0, none⟩
    (by decide) (by decide) (by decide) "p").1 "boom"

/-- C1: counterexample — when the timeout guard wins the race, the losing
submit is rejected with the 404 "Session not found" error (the guard removed
the record), not the 400 "Session already completed or timed out" error the
claim names for it. -/
theorem c1_counterexample :
    (handleSubmit exStateTimedOut (some "s1") "late").2
      = (404, .errorMsg "Session not found") ∧
    (handleSubmit exStateTimedOut (some "s1") "late").2
      ≠ (400, .errorMsg "Session already completed or timed out") := by
  constructor
  · decide
  · decide

/-- C1 (amended): status transitions at most once and never reverts, and in a
race between submit and the timeout guard exactly one performs the terminal
transition: if submit runs first it answers 200, the session is Completed, and
the guard firing afterwards is a no-op; if the guard runs first the session is
TimedOut and the late submit is rejected — with the 404 SessionNotFound error,
since the guard also removed the record — and changes nothing.  Neither loser
ever sees a second success. -/
theorem c1_exactly_once {st : ServerState} {sid : String} {s : SessionData}
    (hne : sid ≠ "") (hg : sessionsGet st sid = some s)
    (hp : s.status = .pending) (c : String) :
    ((handleSubmit st (some sid) c).2 = (200, .submitOk) ∧
      (heapGet (handleSubmit st (some sid) c).1.heap sid).map (fun x => x.status)
        = some .completed ∧
      timeoutFire (handleSubmit st (some sid) c).1 sid = (handleSubmit st (some sid) c).1) ∧
    ((heapGet (timeoutFire st sid).heap sid).map (fun x => x.status) = some .timedOut ∧
      handleSubmit (timeoutFire st sid) (some sid) c
        = (timeoutFire st sid, (404, .errorMsg "Session not found"))) ∧
    (∀ ops s', heapGet st.heap sid = some s' → s'.status ≠ .pending →
      (heapGet (run st ops).heap sid).map (fun x => x.status) = some s'.status) := by
  obtain ⟨hkm, hhp⟩ := sessionsGet_eq_some hg
  refine ⟨?_, ?_, ?_⟩
  · rw [handleSubmit_pending st hne hg hp c]
    refine ⟨rfl, ?_, ?_⟩
    · simp [submitRecord]
    · exact timeoutFire_notPending _ (heapGet_heapSet_self _ _ _) (by simp [submitRecord])
  · rw [timeoutFire_pending st hhp hp]
    refine ⟨by simp [timedOutRecord], ?_⟩
    have hgone : sessionsGet
        { heap := heapSet st.heap sid (timedOutRecord s),
          storeKeys := keyRemove st.storeKeys sid } sid = none := by
      simp [sessionsGet]
    exact handleSubmit_notFound _ hne hgone c
  · intro ops s' hh hnp
    obtain ⟨s2, h2, hmono, _⟩ := run_preserve hh ops
    rw [h2]
    simp [(hmono hnp).1]

theorem c1_exactly_once_witness :
    (handleSubmit exStatePending (some "s1") "v").2 = (200, .submitOk) :=
  (@c1_exactly_once exStatePending "s1"
    ⟨"s1", "draft", "orig", "hist", [], .pending, 0, none⟩
    (by decide) (by decide) (by decide) "v").1.1

/-- C3: counterexample — immediately after a successful submit returns, the
session has resolved (status Completed) yet its record is still registered in
the Session Store, so the store does not only hold Pending records and submit
did not remove the record before returning. -/
theorem c3_counterexample :
    (heapGet exStateSubmitted.heap "s1").map (fun x => x.status) = some .completed ∧
    keyMem exStateSubmitted.storeKeys "s1" = true := by
  constructor
  · decide
  · decide

/-- C3 (amended): the timeout transition removes the record from the store in
the same step, but a successful submit does not: it answers 200 leaving the
record registered, and the record is only removed when the waiter resumed by
the resolution runs its finally-block reap.  The timer is never cancelled;
when it later fires on the no-longer-pending session it is a no-op. -/
theorem c3_store_removal {st : ServerState} {sid : String} {s : SessionData}
    (hne : sid ≠ "") (hg : sessionsGet st sid = some s)
    (hp : s.status = .pending) (c : String) :
    sessionsGet (timeoutFire st sid) sid = none ∧
    ((handleSubmit st (some sid) c).2 = (200, .submitOk) ∧
      keyMem (handleSubmit st (some sid) c).1.storeKeys sid = true) ∧
    sessionsGet (step (handleSubmit st (some sid) c).1 (.reap sid)) sid = none ∧
    timeoutFire (handleSubmit st (some sid) c).1 sid = (handleSubmit st (some sid) c).1 := by
  obtain ⟨hkm, hhp⟩ := sessionsGet_eq_some hg
  refine ⟨?_, ?_, ?_, ?_⟩
  · rw [timeoutFire_pending st hhp hp]
    simp [sessionsGet]
  · rw [handleSubmit_pending st hne hg hp c]
    exact ⟨rfl, hkm⟩
  · rw [handleSubmit_pending st hne hg hp c]
    simp only [step]
    rw [if_pos (by simp [waiterObserve, submitRecord, settle_isSome])]
    simp [waiterReap, sessionsGet]
  · rw [handleSubmit_pending st hne hg hp c]
    exact timeoutFire_notPending _ (heapGet_heapSet_self _ _ _) (by simp [submitRecord])

theorem c3_store_removal_witness :
    sessionsGet (timeoutFire exStatePending "s1") "s1" = none :=
  (@c3_store_removal exStatePending "s1"
    ⟨"s1", "draft", "orig", "hist", [], .pending, 0, none⟩
    (by decide) (by decide) (by decide) "v").1

/-- C2: counterexample — on a Completed session whose record is still in the
store, reprocess does not fail with SessionResolved/SessionNotFound: it
answers 200 and overwrites `currentContent` (the handler never checks
status). -/
theorem c2_counterexample :
    (heapGet exStateSubmitted.heap "s1").map (fun x => x.status) = some .completed ∧
    (handleReEnhance exStateSubmitted (some "s1") "edit" (some (.ok "newText"))).2
      = (200, .enhancedOk "newText") ∧
    (heapGet (handleReEnhance exStateSubmitted (some "s1") "edit"
        (some (.ok "newText"))).1.heap "s1").map (fun x => x.enhancedPrompt)
      = some "newText" := by
  refine ⟨by decide, by decide, by decide⟩

/-- C2 (amended): reprocess fails with SessionNotFound and leaves the state
unchanged whenever the record is absent from the store — always the case for
TimedOut sessions; but the handler checks only record existence, never
status, so while a Completed record is still registered reprocess succeeds
and overwrites `currentContent`. -/
theorem c2_reprocess_resolved {st : ServerState} {sid : String} {s : SessionData}
    (hr : Reachable st) (hne : sid ≠ "") (p : String) :
    (∀ cb, heapGet st.heap sid = some s → s.status = .timedOut →
      handleReEnhance st (some sid) p cb = (st, (404, .errorMsg "Session not found"))) ∧
    (∀ cb, sessionsGet st sid = none →
      handleReEnhance st (some sid) p cb = (st, (404, .errorMsg "Session not found"))) ∧
    (∀ r, sessionsGet st sid = some s → s.status = .completed →
      handleReEnhance st (some sid) p (some (.ok r))
        = ({ st with heap := heapSet st.heap sid (reEnhancedRecord s r) },
            (200, .enhancedOk r))) := by
  refine ⟨?_, ?_, ?_⟩
  · intro cb hh hT
    have w := reachable_wf hr
    have hkm := w.timedOutGone sid s hh hT
    have hgone : sessionsGet st sid = none := by simp [sessionsGet, hkm]
    exact reEnhance_notFound st hne hgone p cb
  · intro cb hgone
    exact reEnhance_notFound st hne hgone p cb
  · intro r hg hC
    exact reEnhance_ok st hne hg p r

theorem c2_reprocess_resolved_witness :
    handleReEnhance exStateTimedOut (some "s1") "p" none
      = (exStateTimedOut, (404, .errorMsg "Session not found")) :=
  (@c2_reprocess_resolved exStateTimedOut "s1"
    ⟨"s1", "draft", "orig", "hist", [], .timedOut, 0, some (.error timeoutMessage)⟩
    ⟨[exCreate, .fireTimeout "s1"], rfl⟩ (by decide) "p").1 none (by decide) (by decide)

/-- C5: when the guard fires on a still-pending session it sets status
TimedOut, settles the promise with the distinguished timeout rejection (whose
message contains "timeout", the marker the caller tests for), removes the
record from the store, and every later submit for that id — after any further
events — is answered 404 SessionNotFound without effect. -/
theorem c5_guard_fires {st : ServerState} {sid : String} {s : SessionData}
    (hr : Reachable st) (hne : sid ≠ "") (hg : sessionsGet st sid = some s)
    (hp : s.status = .pending) :
    (heapGet (timeoutFire st sid).heap sid).map (fun x => x.status) = some .timedOut ∧
    waiterObserve (timeoutFire st sid) sid = some (.error timeoutMessage) ∧
    strIncludes timeoutMessage "timeout" = true ∧
    sessionsGet (timeoutFire st sid) sid = none ∧
    ∀ ops c, handleSubmit (run (timeoutFire st sid) ops) (some sid) c
      = (run (timeoutFire st sid) ops, (404, .errorMsg "Session not found")) := by
  obtain ⟨hkm, hhp⟩ := sessionsGet_eq_some hg
  have hres : s.resolution = none := ((reachable_wf hr).pendingIff _ s hhp).mp hp
  have hr1 : Reachable (timeoutFire st sid) := reachable_step hr (.fireTimeout sid)
  have h1 : heapGet (timeoutFire st sid).heap sid = some (timedOutRecord s) := by
    rw [timeoutFire_pending st hhp hp]
    exact heapGet_heapSet_self _ _ _
  refine ⟨?_, ?_, by decide, ?_, ?_⟩
  · rw [h1]; simp [timedOutRecord]
  · simp [waiterObserve, h1, timedOutRecord, settle, hres]
  · rw [timeoutFire_pending st hhp hp]
    simp [sessionsGet]
  · intro ops c
    obtain ⟨s2, h2, hmono, _⟩ := run_preserve h1 ops
    have hstat2 : s2.status = .timedOut := by
      have hkeep := (hmono (by simp [timedOutRecord])).1
      simpa [timedOutRecord] using hkeep
    have w2 := reachable_wf (reachable_run hr1 ops)
    have hkm2 := w2.timedOutGone sid s2 h2 hstat2
    have hgone : sessionsGet (run (timeoutFire st sid) ops) sid = none := by
      simp [sessionsGet, hkm2]
    exact handleSubmit_notFound _ hne hgone c

theorem c5_guard_fires_witness :
    waiterObserve (timeoutFire exStatePending "s1") "s1"
      = some (.error timeoutMessage) :=
  (@c5_guard_fires exStatePending "s1"
    ⟨"s1", "draft", "orig", "hist", [], .pending, 0, none⟩
    ⟨[exCreate], rfl⟩ (by decide) (by decide) (by decide)).2.1

/-- C7: broadcast, not consumed — once a session's promise has settled to a
value, every observation at any later point of the run sees that same value,
so all callers awaiting the same id observe the same single resolution. -/
theorem c7_broadcast {st : ServerState} {sid : String} {v : Except String String}
    (hobs : waiterObserve st sid = some v) (ops : List Op) :
    waiterObserve (run st ops) sid = some v := by
  unfold waiterObserve at hobs
  cases hget : heapGet st.heap sid with
  | none => rw [hget] at hobs; cases hobs
  | some s =>
    rw [hget] at hobs
    simp at hobs
    obtain ⟨s2, h2, _, hkeep⟩ := run_preserve hget ops
    simp [waiterObserve, h2, hkeep v hobs]

theorem c7_broadcast_witness :
    waiterObserve (run exStateSubmitted [Op.reap "s1"]) "s1" = some (.ok "final") :=
  c7_broadcast (by decide) [Op.reap "s1"]

/-- Frame of a single re-enhance event: the registry and every session's
status and creation time are untouched. -/
theorem reEnhance_step_frame (st : ServerState) (sid : Option String) (p : String)
    (cb : Option (Except String String)) :
    (handleReEnhance st sid p cb).1.storeKeys = st.storeKeys ∧
    ∀ i, ((heapGet (handleReEnhance st sid p cb).1.heap i).map (fun x => x.status)
            = (heapGet st.heap i).map (fun x => x.status) ∧
          (heapGet (handleReEnhance st sid p cb).1.heap i).map (fun x => x.createdAt)
            = (heapGet st.heap i).map (fun x => x.createdAt)) := by
  cases hf : isFalsy sid with
  | true => rw [reEnhance_missing st hf p cb]; exact ⟨rfl, fun i => ⟨rfl, rfl⟩⟩
  | false =>
    obtain ⟨sid', rfl, hne⟩ := isFalsy_eq_false hf
    cases hg : sessionsGet st sid' with
    | none => rw [reEnhance_notFound st hne hg p cb]; exact ⟨rfl, fun i => ⟨rfl, rfl⟩⟩
    | some s =>
      cases cb with
      | none => rw [reEnhance_noCallback st hne hg p]; exact ⟨rfl, fun i => ⟨rfl, rfl⟩⟩
      | some r =>
        cases r with
        | ok newP =>
          rw [reEnhance_ok st hne hg p newP]
          refine ⟨rfl, fun i => ?_⟩
          by_cases hij : i = sid'
          · subst hij
            obtain ⟨hkm, hhp⟩ := sessionsGet_eq_some hg
            simp [hhp, reEnhancedRecord]
          · have hkeep : heapGet (heapSet st.heap sid' (reEnhancedRecord s newP)) i
                = heapGet st.heap i := heapGet_heapSet_ne st.heap _ hij
            exact ⟨by simp [hkeep], by simp [hkeep]⟩
        | error m => rw [reEnhance_error st hne hg p m]; exact ⟨rfl, fun i => ⟨rfl, rfl⟩⟩

/-- C8: reprocess mutates only `currentContent`: any sequence of re-enhance
events leaves the registry and every session's status and creation time —
hence its fixed deadline `createdAt + TIMEOUT_MS` — unchanged, and the
deadline constant is 8 minutes; the deadline is armed once at creation and
never extended by activity. -/
theorem c8_reprocess_frame {st : ServerState} {ops : List Op}
    (hre : ∀ o ∈ ops, ∃ a b cbo, o = Op.reEnhance a b cbo) :
    ((run st ops).storeKeys = st.storeKeys ∧
     ∀ i, ((heapGet (run st ops).heap i).map (fun x => x.status)
            = (heapGet st.heap i).map (fun x => x.status) ∧
          (heapGet (run st ops).heap i).map (fun x => x.createdAt)
            = (heapGet st.heap i).map (fun x => x.createdAt))) ∧
    TIMEOUT_MS = 8 * 60 * 1000 := by
  refine ⟨?_, rfl⟩
  induction ops generalizing st with
  | nil => exact ⟨rfl, fun i => ⟨rfl, rfl⟩⟩
  | cons o rest ih =>
    obtain ⟨a, b, cbo, rfl⟩ := hre o (List.mem_cons_self o rest)
    have hstep := reEnhance_step_frame st a b cbo
    have hrest := @ih (handleReEnhance st a b cbo).1
      (fun o ho => hre o (List.mem_cons_of_mem _ ho))
    refine ⟨hrest.1.trans hstep.1, fun i => ?_⟩
    exact ⟨((hrest.2 i).1).trans ((hstep.2 i).1), ((hrest.2 i).2).trans ((hstep.2 i).2)⟩

theorem c8_reprocess_frame_witness :
    (run exStatePending [Op.reEnhance (some "s1") "e" (some (.ok "n"))]).storeKeys
      = exStatePending.storeKeys :=
  (@c8_reprocess_frame exStatePending [Op.reEnhance (some "s1") "e" (some (.ok "n"))]
    (fun o ho => ⟨_, _, _, List.mem_singleton.mp ho⟩)).1.1

/-- C9: an await observation is either a resolved value (edited text, fallback
text, or the end-conversation sentinel) or a rejection, and the only rejection
the broker ever produces is the distinguished timeout failure; on exactly that
failure `enhancePromptTool` does not hard-fail but returns a message carrying
the original, unedited prompt. -/
theorem c9_tool_fallback {st : ServerState} {sid : String} {r : Except String String}
    (hr : Reachable st) (hobs : waiterObserve st sid = some r) (p h : String)
    (hpne : p ≠ "") (hhne : h ≠ "") :
    ((∃ v, r = .ok v) ∨ r = .error timeoutMessage) ∧
    (∀ m, r = .error m → m = timeoutMessage) ∧
    enhancePromptTool (some p) (some h) (.error timeoutMessage)
      = .ok ("Enhancement timed out (8 minutes). Using original prompt: " ++ p) := by
  have w := reachable_wf hr
  have hmsg : ∀ m, r = .error m → m = timeoutMessage := by
    intro m hm
    subst hm
    unfold waiterObserve at hobs
    cases hget : heapGet st.heap sid with
    | none => rw [hget] at hobs; cases hobs
    | some s =>
      rw [hget] at hobs
      simp at hobs
      exact w.errTimeout sid s hget m hobs
  have hinc : strIncludes timeoutMessage "timeout" = true := by decide
  refine ⟨?_, hmsg, ?_⟩
  · cases r with
    | ok v => exact Or.inl ⟨v, rfl⟩
    | error m => exact Or.inr (by rw [hmsg m rfl])
  · simp [enhancePromptTool, isFalsy_some_ne hpne, isFalsy_some_ne hhne, hinc]

theorem c9_tool_fallback_witness :
    enhancePromptTool (some "myPrompt") (some "hist") (.error timeoutMessage)
      = .ok ("Enhancement timed out (8 minutes). Using original prompt: " ++ "myPrompt") :=
  (@c9_tool_fallback exStateTimedOut "s1" (.error timeoutMessage)
    ⟨[exCreate, .fireTimeout "s1"], rfl⟩ (by decide) "myPrompt" "hist"
    (by decide) (by decide)).2.2

end AceTool
